import Mathlib

/-!
Shallow embedding of the ra-data-simple-microservices data provider
(src/provider/index.tsx).  JavaScript values observable by the adapter are
modelled by the inductive type JVal; the injected HTTP client (the
fetchJson-style transport) is modelled as a function from requests to either
a rejection (Except.error, carrying the message of the Error the promise was
rejected with) or a response carrying status, headers and parsed json.
Promise.all over the per-id requests of updateMany and deleteMany is
modelled by promiseAll, which rejects with the first rejection of the list
and otherwise resolves to the list of results in input order.
-/

/-- JSON-like JavaScript values, including undefined (which json.id can
produce when the response body has no id field). -/
inductive JVal where
  | null
  | undefined
  | bool (b : Bool)
  | num (n : Int)
  | str (s : String)
  | arr (elems : List JVal)
  | obj (fields : List (String × JVal))

/-- Property lookup on a JavaScript object, modelled as the first binding of
the key in the field list (JavaScript objects have unique keys). -/
def objGet (fields : List (String × JVal)) (k : String) : Option JVal :=
  (fields.find? (fun p => p.1 == k)).map (fun p => p.2)

/-- Semantics of the JavaScript object literal that spreads an object f and
then sets one computed key t to v: if t already occurs in f its value is
replaced in place, otherwise the binding is appended at the end. -/
def objSpread (fields : List (String × JVal)) (t : String) (v : JVal) :
    List (String × JVal) :=
  if fields.any (fun p => p.1 == t) then
    fields.map (fun p => if p.1 == t then (t, v) else p)
  else
    fields ++ [(t, v)]

/-- Reading the field k of a JSON value, as JavaScript property access on
the parsed json: only objects have fields. -/
def jsonGetField (j : JVal) (k : String) : Option JVal :=
  match j with
  | .obj fields => objGet fields k
  | _ => none

/-- JavaScript expression json.id: reading an absent property yields
undefined. -/
def jsonId (j : JVal) : JVal :=
  (jsonGetField j "id").getD .undefined

/-- The react-admin Identifier type: a string or a number. -/
inductive RaId where
  | num (n : Int)
  | str (s : String)
deriving DecidableEq

/-- JavaScript template-literal stringification of an identifier. -/
def idToString : RaId → String
  | .num n => toString n
  | .str s => s

/-- An identifier as the JSON value it denotes. -/
def idToJVal : RaId → JVal
  | .num n => .num n
  | .str s => .str s

/-- Test for the undefined value. -/
def jvalIsUndefined : JVal → Bool
  | .undefined => true
  | _ => false

/-- Escaping of one character inside a JSON string literal, as performed by
the JavaScript builtin JSON.stringify. -/
def escapeJsonChar (c : Char) : String :=
  if c = '"' then "\\\""
  else if c = '\\' then "\\\\"
  else if c = '\n' then "\\n"
  else if c = '\r' then "\\r"
  else if c = '\t' then "\\t"
  else String.mk [c]

/-- A string as a quoted JSON string literal. -/
def quoteJsonString (s : String) : String :=
  "\"" ++ String.join (s.data.map escapeJsonChar) ++ "\""

/-- Model of the JavaScript builtin JSON.stringify on the values the adapter
serializes: object fields whose value is undefined are dropped, an undefined
array element serializes as null. -/
def jsonStringify : JVal → String
  | .null => "null"
  | .undefined => "undefined"
  | .bool true => "true"
  | .bool false => "false"
  | .num n => toString n
  | .str s => quoteJsonString s
  | .arr elems =>
      "[" ++
        String.intercalate ","
          (elems.attach.map (fun e =>
            if jvalIsUndefined e.1 then "null" else jsonStringify e.1)) ++
        "]"
  | .obj fields =>
      "\x7b" ++
        String.intercalate ","
          ((fields.attach.filter (fun f => ! jvalIsUndefined f.1.2)).map
            (fun f => quoteJsonString f.1.1 ++ ":" ++ jsonStringify f.1.2)) ++
        "\x7d"
decreasing_by
· simp_wf
  have h := List.sizeOf_lt_of_mem e.2
  omega
· simp_wf
  obtain ⟨⟨k, v⟩, hm⟩ := f
  have h := List.sizeOf_lt_of_mem hm
  simp at h ⊢
  omega

/-- Model of the JavaScript string method split with a one-character
separator, on the character list of the string: splitting never yields an
empty list, and separators at the ends yield empty segments, exactly as in
JavaScript. -/
def jsSplitChar (c : Char) : List Char → List (List Char)
  | [] => [[]]
  | x :: xs =>
    match jsSplitChar c xs with
    | [] => [[]]
    | seg :: rest =>
      if x = c then [] :: seg :: rest else (x :: seg) :: rest

/-- The expression s.split(sep).pop() of the source for a one-character
separator: the segment after the last occurrence of the separator. -/
def lastSegment (sep : Char) (s : String) : String :=
  String.mk ((jsSplitChar sep s.data).getLastD [])

/-- Value of a list of decimal digit characters, most significant first. -/
def digitsToNat (ds : List Char) : Nat :=
  ds.foldl (fun a c => 10 * a + (c.toNat - 48)) 0

/-- The digit-consuming loop of the JavaScript builtin parseInt with radix
10: take the longest prefix of decimal digits; no digit at all gives NaN,
modelled as none. -/
def jsParseIntDigits (l : List Char) : Option Nat :=
  match l.takeWhile Char.isDigit with
  | [] => none
  | ds => some (digitsToNat ds)

/-- Model of the JavaScript builtin parseInt(s, 10): skip leading
whitespace, read an optional sign, then parse the longest prefix of decimal
digits; NaN (no digit found) is modelled as none. -/
def jsParseInt (s : String) : Option Int :=
  match s.data.dropWhile Char.isWhitespace with
  | [] => none
  | c :: rest =>
    if c = '-' then (jsParseIntDigits rest).map (fun n => -(n : Int))
    else if c = '+' then (jsParseIntDigits rest).map (fun n => (n : Int))
    else (jsParseIntDigits (c :: rest)).map (fun n => (n : Int))

/-- UTF-8 bytes of a character, as natural numbers below 256. -/
def utf8Bytes (c : Char) : List Nat :=
  let n := c.toNat
  if n < 128 then [n]
  else if n < 2048 then [192 + n / 64, 128 + n % 64]
  else if n < 65536 then [224 + n / 4096, 128 + (n / 64) % 64, 128 + n % 64]
  else [240 + n / 262144, 128 + (n / 4096) % 64, 128 + (n / 64) % 64,
        128 + n % 64]

/-- Characters left unescaped by strict URI component encoding. -/
def isUnreservedChar (c : Char) : Bool :=
  c.isAlphanum || c = '-' || c = '_' || c = '.' || c = '~'

/-- Uppercase hexadecimal digit for a value below 16. -/
def hexDigitChar (n : Nat) : Char :=
  if n < 10 then Char.ofNat (48 + n) else Char.ofNat (55 + n)

/-- Percent-encoding of one character, byte by byte. -/
def percentEncodeChar (c : Char) : String :=
  if isUnreservedChar c then String.mk [c]
  else
    String.join
      ((utf8Bytes c).map
        (fun b => String.mk ['%', hexDigitChar (b / 16), hexDigitChar (b % 16)]))

/-- Model of the strict percent-encoding the query-string library applies to
each query value. -/
def percentEncode (s : String) : String :=
  String.join (s.data.map percentEncodeChar)

/-- HTTP methods used by the provider. -/
inductive Method where
  | GET
  | POST
  | PUT
  | DELETE
deriving DecidableEq

/-- An HTTP request as handed to the injected httpClient: the url and the
options object (method, defaulting to GET, and optional body). -/
structure Req where
  url : String
  method : Method
  body : Option String
deriving DecidableEq

/-- An HTTP response as resolved by the fetchJson-style httpClient: status,
headers and the parsed json body. -/
structure Resp where
  status : Int
  headers : List (String × String)
  json : JVal

/-- ASCII lower-casing of one character. -/
def charToLower (c : Char) : Char :=
  if 'A' ≤ c ∧ c ≤ 'Z' then Char.ofNat (c.toNat + 32) else c

/-- ASCII lower-casing of a header name, character by character. -/
def strToLower (s : String) : String :=
  String.mk (s.data.map charToLower)

/-- The headers.has lookup of the fetch Headers object: case-insensitive on
the header name. -/
def headersHas (hs : List (String × String)) (nm : String) : Bool :=
  hs.any (fun p => strToLower p.1 == strToLower nm)

/-- The headers.get lookup of the fetch Headers object. -/
def headersGet (hs : List (String × String)) (nm : String) : Option String :=
  (hs.find? (fun p => strToLower p.1 == strToLower nm)).map (fun p => p.2)

/-- The injected transport: a promise-returning function, modelled as a map
from the request to either a rejection message or a response. -/
abbrev HttpClient := Req → Except String Resp

/-- Promise.all over an already-dispatched list of promises: rejects with
the first rejection, otherwise resolves with the results in input order. -/
def promiseAll {ε α : Type} : List (Except ε α) → Except ε (List α)
  | [] => .ok []
  | x :: xs =>
    match x with
    | .error e => .error e
    | .ok a => (promiseAll xs).map (fun l => a :: l)

/-- The key/value map from resource name to the base url of its
microservice. -/
abbrev MicroServiceConfig := String → String

/-- Pagination parameters of the list operations. -/
structure Pagination where
  page : Int
  perPage : Int

/-- Sort parameters of the list operations. -/
structure SortSpec where
  field : String
  order : String

/-- Parameters of getList. -/
structure GetListParams where
  pagination : Pagination
  sort : SortSpec
  filter : List (String × JVal)

/-- Parameters of getManyReference. -/
structure GetManyReferenceParams where
  pagination : Pagination
  sort : SortSpec
  filter : List (String × JVal)
  target : String
  id : RaId

/-- The query object of getList and getManyReference: the three values are
already JSON-stringified, as in the source. -/
structure Query where
  sort : String
  range : String
  filter : String

/-- Model of stringify(query) from the query-string library on the
three-key query object: keys are emitted in alphabetical order (filter,
range, sort) and every value is percent-encoded. -/
def qsStringify (q : Query) : String :=
  "filter=" ++ percentEncode q.filter ++ "&range=" ++ percentEncode q.range ++
    "&sort=" ++ percentEncode q.sort

/-- Model of stringify on the one-key query object of getMany. -/
def qsStringifyFilter (filter : String) : String :=
  "filter=" ++ percentEncode filter

/-- Result shape of the operations that return a single record. -/
structure SingleResult where
  data : JVal

/-- Result shape of getList and getManyReference; the total comes from
parseInt and is none when parseInt returns NaN. -/
structure ListResult where
  data : JVal
  total : Option Int

/-- Result shape of updateMany and deleteMany: the list of ids read back
from the responses. -/
structure ManyResult where
  data : List JVal

/-- Result shape of create: the submitted object with the id field set. -/
structure CreateResult where
  data : List (String × JVal)

/-- The message of the Error thrown by getList and getManyReference when the
Content-Range header is missing, verbatim from the source. -/
def missingContentRangeMsg : String :=
  "The Content-Range header is missing in the HTTP Response. The simple REST data provider expects responses for lists of resources to contain this header with the total number of results to build the pagination. If you are using CORS, did you declare Content-Range in the Access-Control-Expose-Headers header?"

/-- The .then callback that getList and getManyReference both run on the
response (the source repeats this block verbatim in the two operations):
throw when the Content-Range header is missing, otherwise start from the
string "10" and, when the header value is truthy (non-empty), replace it
with contentRange.split(sep).pop() for the slash separator, and return the
json as data with parseInt(total, 10) as total. -/
def listResponseHandler (resp : Resp) : Except String ListResult :=
  if ! headersHas resp.headers "content-range" then
    .error missingContentRangeMsg
  else
    let contentRange := headersGet resp.headers "content-range"
    let total : String :=
      match contentRange with
      | none => "10"
      | some s => if s = "" then "10" else lastSegment '/' s
    .ok ⟨resp.json, jsParseInt total⟩

/-- The query object built by getList. -/
def getListQuery (params : GetListParams) : Query :=
  { sort := jsonStringify (.arr [.str params.sort.field, .str params.sort.order])
    range := jsonStringify (.arr
      [.num ((params.pagination.page - 1) * params.pagination.perPage),
       .num (params.pagination.page * params.pagination.perPage - 1)])
    filter := jsonStringify (.obj params.filter) }

/-- The single GET request issued by getList. -/
def getListRequest (config : MicroServiceConfig) (resource : String)
    (params : GetListParams) : Req :=
  ⟨config resource ++ "?" ++ qsStringify (getListQuery params), .GET, none⟩

/-- The getList operation. -/
def getList (config : MicroServiceConfig) (httpClient : HttpClient)
    (resource : String) (params : GetListParams) : Except String ListResult :=
  (httpClient (getListRequest config resource params)).bind listResponseHandler

/-- The single GET request issued by getOne. -/
def getOneRequest (config : MicroServiceConfig) (resource : String)
    (id : RaId) : Req :=
  ⟨config resource ++ "/" ++ idToString id, .GET, none⟩

/-- The getOne operation. -/
def getOne (config : MicroServiceConfig) (httpClient : HttpClient)
    (resource : String) (id : RaId) : Except String SingleResult :=
  (httpClient (getOneRequest config resource id)).map (fun r => ⟨r.json⟩)

/-- The single GET request issued by getMany, with the ids as filter. -/
def getManyRequest (config : MicroServiceConfig) (resource : String)
    (ids : List RaId) : Req :=
  ⟨config resource ++ "?" ++
      qsStringifyFilter (jsonStringify (.obj [("id", .arr (ids.map idToJVal))])),
    .GET, none⟩

/-- The getMany operation. -/
def getMany (config : MicroServiceConfig) (httpClient : HttpClient)
    (resource : String) (ids : List RaId) : Except String SingleResult :=
  (httpClient (getManyRequest config resource ids)).map (fun r => ⟨r.json⟩)

/-- The filter object built by getManyReference: the caller filter spread
first, then the computed key target set to the id. -/
def getManyReferenceFilter (params : GetManyReferenceParams) :
    List (String × JVal) :=
  objSpread params.filter params.target (idToJVal params.id)

/-- The query object built by getManyReference. -/
def getManyReferenceQuery (params : GetManyReferenceParams) : Query :=
  { sort := jsonStringify (.arr [.str params.sort.field, .str params.sort.order])
    range := jsonStringify (.arr
      [.num ((params.pagination.page - 1) * params.pagination.perPage),
       .num (params.pagination.page * params.pagination.perPage - 1)])
    filter := jsonStringify (.obj (getManyReferenceFilter params)) }

/-- The single GET request issued by getManyReference. -/
def getManyReferenceRequest (config : MicroServiceConfig) (resource : String)
    (params : GetManyReferenceParams) : Req :=
  ⟨config resource ++ "?" ++ qsStringify (getManyReferenceQuery params),
    .GET, none⟩

/-- The getManyReference operation. -/
def getManyReference (config : MicroServiceConfig) (httpClient : HttpClient)
    (resource : String) (params : GetManyReferenceParams) :
    Except String ListResult :=
  (httpClient (getManyReferenceRequest config resource params)).bind
    listResponseHandler

/-- The single PUT request issued by update. -/
def updateRequest (config : MicroServiceConfig) (resource : String)
    (id : RaId) (data : JVal) : Req :=
  ⟨config resource ++ "/" ++ idToString id, .PUT, some (jsonStringify data)⟩

/-- The update operation. -/
def update (config : MicroServiceConfig) (httpClient : HttpClient)
    (resource : String) (id : RaId) (data : JVal) :
    Except String SingleResult :=
  (httpClient (updateRequest config resource id data)).map (fun r => ⟨r.json⟩)

/-- The per-id PUT request of updateMany. -/
def updateManyRequest (config : MicroServiceConfig) (resource : String)
    (data : JVal) (id : RaId) : Req :=
  ⟨config resource ++ "/" ++ idToString id, .PUT, some (jsonStringify data)⟩

/-- The requests dispatched by updateMany, one per id in input order. -/
def updateManyRequests (config : MicroServiceConfig) (resource : String)
    (ids : List RaId) (data : JVal) : List Req :=
  ids.map (updateManyRequest config resource data)

/-- The updateMany operation: one PUT per id through Promise.all, then the
id of each response json, in input order. -/
def updateMany (config : MicroServiceConfig) (httpClient : HttpClient)
    (resource : String) (ids : List RaId) (data : JVal) :
    Except String ManyResult :=
  (promiseAll ((updateManyRequests config resource ids data).map httpClient)).map
    (fun responses => ⟨responses.map (fun r => jsonId r.json)⟩)

/-- The single POST request issued by create. -/
def createRequest (config : MicroServiceConfig) (resource : String)
    (data : List (String × JVal)) : Req :=
  ⟨config resource, .POST, some (jsonStringify (.obj data))⟩

/-- The create operation: the resolved data is the submitted object spread
into a new object whose id field is set to json.id. -/
def create (config : MicroServiceConfig) (httpClient : HttpClient)
    (resource : String) (data : List (String × JVal)) :
    Except String CreateResult :=
  (httpClient (createRequest config resource data)).map
    (fun r => ⟨objSpread data "id" (jsonId r.json)⟩)

/-- The single DELETE request issued by delete. -/
def deleteRequest (config : MicroServiceConfig) (resource : String)
    (id : RaId) : Req :=
  ⟨config resource ++ "/" ++ idToString id, .DELETE, none⟩

/-- The delete operation. -/
def deleteOp (config : MicroServiceConfig) (httpClient : HttpClient)
    (resource : String) (id : RaId) : Except String SingleResult :=
  (httpClient (deleteRequest config resource id)).map (fun r => ⟨r.json⟩)

/-- The per-id DELETE request of deleteMany. -/
def deleteManyRequest (config : MicroServiceConfig) (resource : String)
    (id : RaId) : Req :=
  ⟨config resource ++ "/" ++ idToString id, .DELETE, none⟩

/-- The requests dispatched by deleteMany, one per id in input order. -/
def deleteManyRequests (config : MicroServiceConfig) (resource : String)
    (ids : List RaId) : List Req :=
  ids.map (deleteManyRequest config resource)

/-- The deleteMany operation: one DELETE per id through Promise.all, then
the id of each response json, in input order. -/
def deleteMany (config : MicroServiceConfig) (httpClient : HttpClient)
    (resource : String) (ids : List RaId) : Except String ManyResult :=
  (promiseAll ((deleteManyRequests config resource ids).map httpClient)).map
    (fun responses => ⟨responses.map (fun r => jsonId r.json)⟩)

theorem jsSplitChar_ne_nil (c : Char) (l : List Char) : jsSplitChar c l ≠ [] := by
  cases l with
  | nil => simp [jsSplitChar]
  | cons x xs =>
    simp only [jsSplitChar]
    cases jsSplitChar c xs with
    | nil => simp
    | cons seg rest => by_cases hx : x = c <;> simp [hx]

theorem jsSplitChar_length_ge_two (c : Char) (l : List Char) (h : c ∈ l) :
    2 ≤ (jsSplitChar c l).length := by
  induction l with
  | nil => cases h
  | cons x xs ih =>
    simp only [jsSplitChar]
    cases hs : jsSplitChar c xs with
    | nil => exact absurd hs (jsSplitChar_ne_nil c xs)
    | cons seg rest =>
      by_cases hx : x = c
      · simp [hx]
      · have hmem : c ∈ xs := by
          rcases List.mem_cons.mp h with h1 | h2
          · exact absurd h1.symm hx
          · exact h2
        have h2 := ih hmem
        rw [hs] at h2
        simp [hx] at h2 ⊢
        omega

theorem jsSplitChar_not_mem (c : Char) (l : List Char) (h : c ∉ l) :
    jsSplitChar c l = [l] := by
  induction l with
  | nil => rfl
  | cons x xs ih =>
    have hx : ¬ x = c := fun he => h (he ▸ List.mem_cons_self x xs)
    have hxs : c ∉ xs := fun hm => h (List.mem_cons_of_mem x hm)
    simp only [jsSplitChar, ih hxs]
    simp [hx]

theorem jsSplitChar_append_getLastD (c : Char) (l₁ l₂ : List Char) :
    (jsSplitChar c (l₁ ++ c :: l₂)).getLastD [] =
      (jsSplitChar c l₂).getLastD [] := by
  induction l₁ with
  | nil =>
    simp only [List.nil_append, jsSplitChar]
    cases hs : jsSplitChar c l₂ with
    | nil => exact absurd hs (jsSplitChar_ne_nil c l₂)
    | cons seg rest => simp [List.getLastD_cons]
  | cons x xs ih =>
    simp only [List.cons_append, jsSplitChar]
    cases hs : jsSplitChar c (xs ++ c :: l₂) with
    | nil => exact absurd hs (jsSplitChar_ne_nil c (xs ++ c :: l₂))
    | cons seg rest =>
      rw [hs] at ih
      by_cases hx : x = c
      · simpa [hx, List.getLastD_cons] using ih
      · have hlen :=
          jsSplitChar_length_ge_two c (xs ++ c :: l₂) (by simp)
        rw [hs] at hlen
        cases rest with
        | nil => simp at hlen
        | cons r rs =>
          simp [hx, List.getLastD_cons] at ih ⊢
          exact ih

theorem lastSegment_append (t ds : String) (h : '/' ∉ ds.data) :
    lastSegment '/' (t ++ "/" ++ ds) = ds := by
  unfold lastSegment
  have hdata : (t ++ "/" ++ ds).data = t.data ++ '/' :: ds.data := by
    simp
  rw [hdata, jsSplitChar_append_getLastD, jsSplitChar_not_mem '/' ds.data h]
  rfl

theorem isDigit_not_whitespace (c : Char) (h : c.isDigit = true) :
    c.isWhitespace = false := by
  have hne : ¬ (c = ' ' ∨ c = '\t' ∨ c = '\r' ∨ c = '\n') := by
    rintro (rfl | rfl | rfl | rfl) <;> revert h <;> decide
  push_neg at hne
  simp [Char.isWhitespace, hne.1, hne.2.1, hne.2.2.1, hne.2.2.2]

theorem isDigit_ne_minus (c : Char) (h : c.isDigit = true) : ¬ c = '-' := by
  rintro rfl; revert h; decide

theorem isDigit_ne_plus (c : Char) (h : c.isDigit = true) : ¬ c = '+' := by
  rintro rfl; revert h; decide

theorem takeWhile_of_all {α : Type} (p : α → Bool) :
    ∀ l : List α, (∀ a ∈ l, p a = true) → l.takeWhile p = l := by
  intro l h
  induction l with
  | nil => rfl
  | cons x xs ih =>
    have hx := h x (List.mem_cons_self x xs)
    simp [List.takeWhile_cons, hx,
      ih (fun a ha => h a (List.mem_cons_of_mem x ha))]

theorem jsParseInt_digits (ds : List Char) (hne : ds ≠ [])
    (hd : ∀ c ∈ ds, c.isDigit = true) :
    jsParseInt (String.mk ds) = some ((digitsToNat ds : Nat) : Int) := by
  cases ds with
  | nil => exact absurd rfl hne
  | cons c cs =>
    have hc : c.isDigit = true := hd c (List.mem_cons_self c cs)
    have hws := isDigit_not_whitespace c hc
    have htake := takeWhile_of_all Char.isDigit (c :: cs) hd
    simp only [jsParseInt, String.mk]
    rw [List.dropWhile_cons]
    simp only [hws, Bool.false_eq_true, if_false]
    simp only [isDigit_ne_minus c hc, isDigit_ne_plus c hc, if_false]
    simp only [jsParseIntDigits, htake]
    rfl

theorem headersGet_some_has (hs : List (String × String)) (nm s : String)
    (h : headersGet hs nm = some s) : headersHas hs nm = true := by
  unfold headersGet at h
  unfold headersHas
  obtain ⟨p, hp, _⟩ := Option.map_eq_some'.mp h
  have hpred := List.find?_some hp
  simp only [List.any_eq_true]
  exact ⟨p, List.mem_of_find?_eq_some hp, hpred⟩

theorem listResponseHandler_error_iff (resp : Resp) :
    listResponseHandler resp = .error missingContentRangeMsg ↔
      headersHas resp.headers "content-range" = false := by
  constructor
  · intro h
    by_cases hh : headersHas resp.headers "content-range"
    · exfalso
      unfold listResponseHandler at h
      simp [hh] at h
    · simpa using hh
  · intro h
    simp [listResponseHandler, h]

theorem listResponseHandler_of_get (resp : Resp) (s : String)
    (h : headersGet resp.headers "content-range" = some s) :
    listResponseHandler resp =
      .ok ⟨resp.json, jsParseInt (if s = "" then "10" else lastSegment '/' s)⟩ := by
  have hh := headersGet_some_has resp.headers "content-range" s h
  simp [listResponseHandler, hh, h]

theorem getList_ok_resp (config : MicroServiceConfig) (httpClient : HttpClient)
    (resource : String) (params : GetListParams) (resp : Resp)
    (h : httpClient (getListRequest config resource params) = .ok resp) :
    getList config httpClient resource params = listResponseHandler resp := by
  unfold getList
  rw [h]
  rfl

theorem getManyReference_ok_resp (config : MicroServiceConfig)
    (httpClient : HttpClient) (resource : String)
    (params : GetManyReferenceParams) (resp : Resp)
    (h : httpClient (getManyReferenceRequest config resource params) = .ok resp) :
    getManyReference config httpClient resource params =
      listResponseHandler resp := by
  unfold getManyReference
  rw [h]
  rfl

theorem objGet_cons_pos (p : String × JVal) (f : List (String × JVal))
    (k : String) (h : (p.1 == k) = true) : objGet (p :: f) k = some p.2 := by
  have h2 : (fun q : String × JVal => q.1 == k) p = true := h
  simp only [objGet]
  rw [@List.find?_cons_of_pos (String × JVal) (fun q => q.1 == k) p f h2]
  rfl

theorem objGet_cons_neg (p : String × JVal) (f : List (String × JVal))
    (k : String) (h : (p.1 == k) = false) : objGet (p :: f) k = objGet f k := by
  have h2 : ¬ (fun q : String × JVal => q.1 == k) p = true := by simp [h]
  simp only [objGet]
  rw [@List.find?_cons_of_neg (String × JVal) (fun q => q.1 == k) p f h2]

theorem objGet_map_replace (f : List (String × JVal)) (t : String) (v : JVal)
    (h : f.any (fun p => p.1 == t) = true) :
    objGet (f.map (fun p => if p.1 == t then (t, v) else p)) t = some v := by
  induction f with
  | nil => simp at h
  | cons p f ih =>
    rw [List.any_cons] at h
    by_cases hp : (p.1 == t) = true
    · rw [List.map_cons, if_pos hp]
      exact objGet_cons_pos (t, v) _ t (by simp)
    · have hp' : (p.1 == t) = false := by simpa using hp
      have hf : f.any (fun p => p.1 == t) = true := by
        rw [hp'] at h
        simpa using h
      rw [List.map_cons, if_neg (by simp [hp'])]
      rw [objGet_cons_neg p _ t hp']
      exact ih hf

theorem objGet_append_self (f : List (String × JVal)) (t : String) (v : JVal)
    (h : f.any (fun p => p.1 == t) = false) :
    objGet (f ++ [(t, v)]) t = some v := by
  induction f with
  | nil =>
    rw [List.nil_append]
    exact objGet_cons_pos (t, v) [] t (by simp)
  | cons p f ih =>
    rw [List.any_cons] at h
    have h1 : (p.1 == t) = false := by
      cases hpb : (p.1 == t)
      · rfl
      · rw [hpb] at h
        simp at h
    have h2 : f.any (fun p => p.1 == t) = false := by
      rw [h1] at h
      simpa using h
    rw [List.cons_append, objGet_cons_neg p _ t h1]
    exact ih h2

theorem objGet_objSpread_self (f : List (String × JVal)) (t : String)
    (v : JVal) : objGet (objSpread f t v) t = some v := by
  unfold objSpread
  by_cases h : f.any (fun p => p.1 == t) = true
  · rw [if_pos h]
    exact objGet_map_replace f t v h
  · rw [if_neg h]
    exact objGet_append_self f t v (eq_false_of_ne_true h)

theorem objGet_map_replace_ne (f : List (String × JVal)) (t : String)
    (v : JVal) (k : String) (hk : ¬ k = t) :
    objGet (f.map (fun p => if p.1 == t then (t, v) else p)) k = objGet f k := by
  induction f with
  | nil => rfl
  | cons p f ih =>
    by_cases hp : (p.1 == t) = true
    · have hpt : p.1 = t := by simpa using hp
      have htk : (t == k : Bool) = false := by
        simp
        exact fun he => hk he.symm
      have hpk : (p.1 == k) = false := by rw [hpt]; exact htk
      rw [List.map_cons, if_pos hp]
      rw [objGet_cons_neg (t, v) _ k htk, objGet_cons_neg p f k hpk]
      exact ih
    · have hp' : (p.1 == t) = false := by simpa using hp
      rw [List.map_cons, if_neg (by simp [hp'])]
      by_cases hpk : (p.1 == k) = true
      · rw [objGet_cons_pos p _ k hpk, objGet_cons_pos p f k hpk]
      · have hpk' : (p.1 == k) = false := by simpa using hpk
        rw [objGet_cons_neg p _ k hpk', objGet_cons_neg p f k hpk']
        exact ih

theorem objGet_append_ne (f : List (String × JVal)) (t : String) (v : JVal)
    (k : String) (hk : ¬ k = t) :
    objGet (f ++ [(t, v)]) k = objGet f k := by
  induction f with
  | nil =>
    rw [List.nil_append]
    rw [objGet_cons_neg (t, v) [] k (by simp; exact fun he => hk he.symm)]
  | cons p f ih =>
    by_cases hpk : (p.1 == k) = true
    · rw [List.cons_append, objGet_cons_pos p _ k hpk, objGet_cons_pos p f k hpk]
    · have hpk' : (p.1 == k) = false := by simpa using hpk
      rw [List.cons_append, objGet_cons_neg p _ k hpk',
        objGet_cons_neg p f k hpk']
      exact ih

theorem objGet_objSpread_ne (f : List (String × JVal)) (t : String) (v : JVal)
    (k : String) (hk : ¬ k = t) :
    objGet (objSpread f t v) k = objGet f k := by
  unfold objSpread
  by_cases h : f.any (fun p => p.1 == t) = true
  · rw [if_pos h]
    exact objGet_map_replace_ne f t v k hk
  · rw [if_neg h]
    exact objGet_append_ne f t v k hk

theorem exceptMap_ok {ε α β : Type} (f : α → β) (a : α) :
    Except.map f (Except.ok a : Except ε α) = .ok (f a) := rfl

theorem exceptMap_error {ε α β : Type} (f : α → β) (e : ε) :
    Except.map f (Except.error e : Except ε α) = .error e := rfl

theorem promiseAll_nil {ε α : Type} :
    promiseAll ([] : List (Except ε α)) = .ok [] := rfl

theorem promiseAll_cons_ok {ε α : Type} (a : α) (xs : List (Except ε α)) :
    promiseAll (.ok a :: xs) = (promiseAll xs).map (fun l => a :: l) := rfl

theorem promiseAll_cons_error {ε α : Type} (e : ε) (xs : List (Except ε α)) :
    promiseAll (.error e :: xs) = .error e := rfl

theorem updateMany_ok_of_ids (config : MicroServiceConfig)
    (httpClient : HttpClient) (resource : String) (data : JVal) :
    ∀ ids : List RaId,
      (∀ i ∈ ids,
        ∃ r, httpClient (updateManyRequest config resource data i) = .ok r ∧
          jsonId r.json = idToJVal i) →
      updateMany config httpClient resource ids data =
        .ok ⟨ids.map idToJVal⟩ := by
  intro ids
  induction ids with
  | nil => intro _; rfl
  | cons i ids ih =>
    intro h
    obtain ⟨r, hr, hid⟩ := h i (List.mem_cons_self i ids)
    have hrest := ih (fun j hj => h j (List.mem_cons_of_mem i hj))
    unfold updateMany updateManyRequests at hrest ⊢
    simp only [List.map_cons]
    rw [hr, promiseAll_cons_ok]
    cases hall : promiseAll
        (List.map httpClient (List.map (updateManyRequest config resource data) ids)) with
    | error e =>
      rw [hall, exceptMap_error] at hrest
      exact absurd hrest (by simp)
    | ok rs =>
      rw [hall, exceptMap_ok] at hrest
      have hdata : rs.map (fun r => jsonId r.json) = ids.map idToJVal := by
        simpa using hrest
      rw [exceptMap_ok, exceptMap_ok]
      simp only [List.map_cons]
      rw [hid, hdata]

theorem deleteMany_ok_of_ids (config : MicroServiceConfig)
    (httpClient : HttpClient) (resource : String) :
    ∀ ids : List RaId,
      (∀ i ∈ ids,
        ∃ r, httpClient (deleteManyRequest config resource i) = .ok r ∧
          jsonId r.json = idToJVal i) →
      deleteMany config httpClient resource ids = .ok ⟨ids.map idToJVal⟩ := by
  intro ids
  induction ids with
  | nil => intro _; rfl
  | cons i ids ih =>
    intro h
    obtain ⟨r, hr, hid⟩ := h i (List.mem_cons_self i ids)
    have hrest := ih (fun j hj => h j (List.mem_cons_of_mem i hj))
    unfold deleteMany deleteManyRequests at hrest ⊢
    simp only [List.map_cons]
    rw [hr, promiseAll_cons_ok]
    cases hall : promiseAll
        (List.map httpClient (List.map (deleteManyRequest config resource) ids)) with
    | error e =>
      rw [hall, exceptMap_error] at hrest
      exact absurd hrest (by simp)
    | ok rs =>
      rw [hall, exceptMap_ok] at hrest
      have hdata : rs.map (fun r => jsonId r.json) = ids.map idToJVal := by
        simpa using hrest
      rw [exceptMap_ok, exceptMap_ok]
      simp only [List.map_cons]
      rw [hid, hdata]

theorem promiseAll_error_of_mem {ε α : Type} :
    ∀ l : List (Except ε α), (∃ x ∈ l, ∃ e, x = .error e) →
      ∃ e, promiseAll l = .error e ∧ ∃ x ∈ l, x = .error e := by
  intro l
  induction l with
  | nil =>
    rintro ⟨x, hx, _⟩
    cases hx
  | cons x xs ih =>
    rintro ⟨y, hy, e, hye⟩
    cases x with
    | error e0 =>
      exact ⟨e0, promiseAll_cons_error e0 xs,
        .error e0, List.mem_cons_self _ xs, rfl⟩
    | ok a =>
      have hmem : ∃ z ∈ xs, ∃ e, z = .error e := by
        rcases List.mem_cons.mp hy with rfl | hy2
        · simp at hye
        · exact ⟨y, hy2, e, hye⟩
      obtain ⟨e1, he1, z, hz, hze⟩ := ih hmem
      refine ⟨e1, ?_, z, List.mem_cons_of_mem _ hz, hze⟩
      rw [promiseAll_cons_ok, he1, exceptMap_error]

/-- Two transport outcomes that agree on everything the adapter can observe
except the status code: same rejection, or responses with the same headers
and the same json, the status being unconstrained. -/
def RespAgree : Except String Resp → Except String Resp → Prop
  | .error e, .error e2 => e = e2
  | .ok r, .ok r2 => r.headers = r2.headers ∧ r.json = r2.json
  | _, _ => False

theorem listResponseHandler_congr (r r2 : Resp) (hh : r.headers = r2.headers)
    (hj : r.json = r2.json) :
    listResponseHandler r = listResponseHandler r2 := by
  unfold listResponseHandler
  rw [hh, hj]

theorem bind_handler_agree (x y : Except String Resp) (h : RespAgree x y) :
    x.bind listResponseHandler = y.bind listResponseHandler := by
  cases x with
  | error e =>
    cases y with
    | error e2 => rw [show e = e2 from h]
    | ok r2 => exact absurd h (by simp [RespAgree])
  | ok r =>
    cases y with
    | error e2 => exact absurd h (by simp [RespAgree])
    | ok r2 =>
      show listResponseHandler r = listResponseHandler r2
      exact listResponseHandler_congr r r2 h.1 h.2

theorem map_single_agree (x y : Except String Resp) (h : RespAgree x y) :
    x.map (fun r => (⟨r.json⟩ : SingleResult)) =
      y.map (fun r => (⟨r.json⟩ : SingleResult)) := by
  cases x with
  | error e =>
    cases y with
    | error e2 => rw [show e = e2 from h]
    | ok r2 => exact absurd h (by simp [RespAgree])
  | ok r =>
    cases y with
    | error e2 => exact absurd h (by simp [RespAgree])
    | ok r2 =>
      rw [exceptMap_ok, exceptMap_ok, h.2]

theorem map_create_agree (data : List (String × JVal))
    (x y : Except String Resp) (h : RespAgree x y) :
    x.map (fun r => (⟨objSpread data "id" (jsonId r.json)⟩ : CreateResult)) =
      y.map (fun r => (⟨objSpread data "id" (jsonId r.json)⟩ : CreateResult)) := by
  cases x with
  | error e =>
    cases y with
    | error e2 => rw [show e = e2 from h]
    | ok r2 => exact absurd h (by simp [RespAgree])
  | ok r =>
    cases y with
    | error e2 => exact absurd h (by simp [RespAgree])
    | ok r2 =>
      rw [exceptMap_ok, exceptMap_ok, h.2]

theorem promiseAll_many_agree (env1 env2 : HttpClient)
    (h : ∀ q, RespAgree (env1 q) (env2 q)) :
    ∀ l : List Req,
      (promiseAll (l.map env1)).map
          (fun rs => (⟨rs.map (fun r => jsonId r.json)⟩ : ManyResult)) =
        (promiseAll (l.map env2)).map
          (fun rs => (⟨rs.map (fun r => jsonId r.json)⟩ : ManyResult)) := by
  intro l
  induction l with
  | nil => rfl
  | cons q l ih =>
    simp only [List.map_cons]
    have hq := h q
    cases h1 : env1 q with
    | error e =>
      cases h2 : env2 q with
      | error e2 =>
        rw [h1, h2] at hq
        rw [show e = e2 from hq, promiseAll_cons_error, promiseAll_cons_error]
      | ok r2 =>
        rw [h1, h2] at hq
        exact absurd hq (by simp [RespAgree])
    | ok r =>
      cases h2 : env2 q with
      | error e2 =>
        rw [h1, h2] at hq
        exact absurd hq (by simp [RespAgree])
      | ok r2 =>
        rw [h1, h2] at hq
        rw [promiseAll_cons_ok, promiseAll_cons_ok]
        cases ha : promiseAll (l.map env1) with
        | error ea =>
          cases hb : promiseAll (l.map env2) with
          | error eb =>
            rw [ha, hb] at ih
            rw [exceptMap_error, exceptMap_error] at ih
            have heq : ea = eb := by simpa using ih
            rw [heq]
            simp only [exceptMap_error]
          | ok rsb =>
            rw [ha, hb, exceptMap_error, exceptMap_ok] at ih
            exact absurd ih (by simp)
        | ok rsa =>
          cases hb : promiseAll (l.map env2) with
          | error eb =>
            rw [ha, hb, exceptMap_ok, exceptMap_error] at ih
            exact absurd ih (by simp)
          | ok rsb =>
            rw [ha, hb, exceptMap_ok, exceptMap_ok] at ih
            have heq : rsa.map (fun r => jsonId r.json) =
                rsb.map (fun r => jsonId r.json) := by simpa using ih
            rw [exceptMap_ok, exceptMap_ok, exceptMap_ok, exceptMap_ok]
            simp only [List.map_cons]
            rw [heq, hq.2]

/-- C1: for every resource, getList and getManyReference reject with the
MissingHeaderError (the thrown Error whose message describes the missing
Content-Range header) exactly when the HTTP response headers lack a
content-range entry; when the header is present, neither operation raises
this error. -/
theorem spec_C1 (config : MicroServiceConfig) (httpClient : HttpClient)
    (resource : String) (p : GetListParams) (q : GetManyReferenceParams)
    (resp resp2 : Resp)
    (h1 : httpClient (getListRequest config resource p) = .ok resp)
    (h2 : httpClient (getManyReferenceRequest config resource q) = .ok resp2) :
    (getList config httpClient resource p = .error missingContentRangeMsg ↔
      headersHas resp.headers "content-range" = false) ∧
    (getManyReference config httpClient resource q =
        .error missingContentRangeMsg ↔
      headersHas resp2.headers "content-range" = false) := by
  constructor
  · rw [getList_ok_resp config httpClient resource p resp h1]
    exact listResponseHandler_error_iff resp
  · rw [getManyReference_ok_resp config httpClient resource q resp2 h2]
    exact listResponseHandler_error_iff resp2

theorem spec_C1_witness :
    (getList (fun _ => "http://posts.api")
        (fun _ => .ok ⟨200, [], .null⟩) "posts"
        ⟨⟨1, 10⟩, ⟨"title", "ASC"⟩, []⟩ = .error missingContentRangeMsg ↔
      headersHas ((⟨200, [], .null⟩ : Resp)).headers "content-range" = false) ∧
    (getManyReference (fun _ => "http://posts.api")
        (fun _ => .ok ⟨200, [], .null⟩) "posts"
        ⟨⟨1, 10⟩, ⟨"id", "ASC"⟩, [], "post_id", .num 7⟩ =
        .error missingContentRangeMsg ↔
      headersHas ((⟨200, [], .null⟩ : Resp)).headers "content-range" = false) :=
  spec_C1 (fun _ => "http://posts.api") (fun _ => .ok ⟨200, [], .null⟩)
    "posts" ⟨⟨1, 10⟩, ⟨"title", "ASC"⟩, []⟩
    ⟨⟨1, 10⟩, ⟨"id", "ASC"⟩, [], "post_id", .num 7⟩
    ⟨200, [], .null⟩ ⟨200, [], .null⟩ rfl rfl

/-- C2 (counterexample to the claim as stated): with the Content-Range
header present but malformed as items 0-24 (no slash separator), getList
resolves successfully, but its total is NaN (modelled none), not the fixed
small default sentinel 10 of the source. -/
theorem spec_C2_counterexample :
    getList (fun _ => "http://posts.api")
        (fun _ => .ok ⟨200, [("content-range", "items 0-24")], .null⟩) "posts"
        ⟨⟨1, 10⟩, ⟨"title", "ASC"⟩, []⟩ = .ok ⟨.null, none⟩ ∧
    getList (fun _ => "http://posts.api")
        (fun _ => .ok ⟨200, [("content-range", "items 0-24")], .null⟩) "posts"
        ⟨⟨1, 10⟩, ⟨"title", "ASC"⟩, []⟩ ≠ .ok ⟨.null, some 10⟩ := by
  refine ⟨rfl, ?_⟩
  intro h
  have h0 : getList (fun _ => "http://posts.api")
      (fun _ => .ok ⟨200, [("content-range", "items 0-24")], .null⟩) "posts"
      ⟨⟨1, 10⟩, ⟨"title", "ASC"⟩, []⟩ = .ok ⟨.null, none⟩ := rfl
  rw [h0] at h
  simp at h

/-- C2 (amended): when the Content-Range header is present, getList and
getManyReference always resolve successfully, with total equal to
parseInt(base 10) of the segment after the last slash of the header value;
for a malformed value this is NaN (none) or whatever integer prefix the
segment has, and the sentinel 10 arises only when the header value is the
empty string, in which case parseInt is applied to the default string 10. -/
theorem spec_C2 (config : MicroServiceConfig) (httpClient : HttpClient)
    (resource : String) (p : GetListParams) (q : GetManyReferenceParams)
    (resp resp2 : Resp) (s s2 : String)
    (h1 : httpClient (getListRequest config resource p) = .ok resp)
    (hs : headersGet resp.headers "content-range" = some s)
    (h2 : httpClient (getManyReferenceRequest config resource q) = .ok resp2)
    (hs2 : headersGet resp2.headers "content-range" = some s2) :
    getList config httpClient resource p =
      .ok ⟨resp.json, jsParseInt (if s = "" then "10" else lastSegment '/' s)⟩ ∧
    getManyReference config httpClient resource q =
      .ok ⟨resp2.json,
        jsParseInt (if s2 = "" then "10" else lastSegment '/' s2)⟩ := by
  constructor
  · rw [getList_ok_resp config httpClient resource p resp h1]
    exact listResponseHandler_of_get resp s hs
  · rw [getManyReference_ok_resp config httpClient resource q resp2 h2]
    exact listResponseHandler_of_get resp2 s2 hs2

theorem spec_C2_witness :
    getList (fun _ => "http://posts.api")
        (fun _ => .ok ⟨200, [("content-range", "items 0-24")], .null⟩) "posts"
        ⟨⟨1, 10⟩, ⟨"title", "ASC"⟩, []⟩ =
      .ok ⟨.null, jsParseInt (if "items 0-24" = "" then "10"
        else lastSegment '/' "items 0-24")⟩ ∧
    getManyReference (fun _ => "http://posts.api")
        (fun _ => .ok ⟨200, [("content-range", "items 0-24")], .null⟩) "posts"
        ⟨⟨1, 10⟩, ⟨"id", "ASC"⟩, [], "post_id", .num 7⟩ =
      .ok ⟨.null, jsParseInt (if "items 0-24" = "" then "10"
        else lastSegment '/' "items 0-24")⟩ :=
  spec_C2 (fun _ => "http://posts.api")
    (fun _ => .ok ⟨200, [("content-range", "items 0-24")], .null⟩) "posts"
    ⟨⟨1, 10⟩, ⟨"title", "ASC"⟩, []⟩
    ⟨⟨1, 10⟩, ⟨"id", "ASC"⟩, [], "post_id", .num 7⟩
    ⟨200, [("content-range", "items 0-24")], .null⟩
    ⟨200, [("content-range", "items 0-24")], .null⟩
    "items 0-24" "items 0-24" rfl rfl rfl rfl

/-- C4: for every pagination input with page and perPage at least 1, the
range value serialized into the query string by getList and
getManyReference is the two-element array of (page-1)*perPage and
page*perPage-1. -/
theorem spec_C4 (p : GetListParams) (q : GetManyReferenceParams)
    (hp1 : 1 ≤ p.pagination.page) (hp2 : 1 ≤ p.pagination.perPage)
    (hq1 : 1 ≤ q.pagination.page) (hq2 : 1 ≤ q.pagination.perPage) :
    (getListQuery p).range = jsonStringify (.arr
      [.num ((p.pagination.page - 1) * p.pagination.perPage),
       .num (p.pagination.page * p.pagination.perPage - 1)]) ∧
    (getManyReferenceQuery q).range = jsonStringify (.arr
      [.num ((q.pagination.page - 1) * q.pagination.perPage),
       .num (q.pagination.page * q.pagination.perPage - 1)]) :=
  ⟨rfl, rfl⟩

theorem spec_C4_witness :
    (getListQuery ⟨⟨2, 25⟩, ⟨"title", "ASC"⟩, []⟩).range =
      jsonStringify (.arr [.num ((2 - 1) * 25), .num (2 * 25 - 1)]) ∧
    (getManyReferenceQuery ⟨⟨3, 10⟩, ⟨"id", "DESC"⟩, [], "post_id", .num 7⟩).range =
      jsonStringify (.arr [.num ((3 - 1) * 10), .num (3 * 10 - 1)]) :=
  spec_C4 ⟨⟨2, 25⟩, ⟨"title", "ASC"⟩, []⟩
    ⟨⟨3, 10⟩, ⟨"id", "DESC"⟩, [], "post_id", .num 7⟩
    (by decide) (by decide) (by decide) (by decide)

/-- C6: getManyReference serializes as filter the caller filter extended
with the target key mapped to the id; the target key of the resulting
object equals the id and every other key keeps the value it has in the
caller filter. -/
theorem spec_C6 (p : GetManyReferenceParams) :
    (getManyReferenceQuery p).filter =
      jsonStringify (.obj (objSpread p.filter p.target (idToJVal p.id))) ∧
    objGet (getManyReferenceFilter p) p.target = some (idToJVal p.id) ∧
    ∀ k, ¬ k = p.target →
      objGet (getManyReferenceFilter p) k = objGet p.filter k := by
  refine ⟨rfl, objGet_objSpread_self _ _ _, ?_⟩
  intro k hk
  exact objGet_objSpread_ne _ _ _ k hk

theorem spec_C6_witness :
    (getManyReferenceQuery
        ⟨⟨1, 10⟩, ⟨"id", "ASC"⟩, [("author", .str "ann")], "post_id", .num 7⟩).filter =
      jsonStringify (.obj (objSpread [("author", .str "ann")] "post_id" (idToJVal (.num 7)))) ∧
    objGet (getManyReferenceFilter
        ⟨⟨1, 10⟩, ⟨"id", "ASC"⟩, [("author", .str "ann")], "post_id", .num 7⟩)
      "post_id" = some (idToJVal (.num 7)) ∧
    objGet (getManyReferenceFilter
        ⟨⟨1, 10⟩, ⟨"id", "ASC"⟩, [("author", .str "ann")], "post_id", .num 7⟩)
      "author" = objGet [("author", .str "ann")] "author" :=
  ⟨(spec_C6 ⟨⟨1, 10⟩, ⟨"id", "ASC"⟩, [("author", .str "ann")], "post_id", .num 7⟩).1,
   (spec_C6 ⟨⟨1, 10⟩, ⟨"id", "ASC"⟩, [("author", .str "ann")], "post_id", .num 7⟩).2.1,
   (spec_C6 ⟨⟨1, 10⟩, ⟨"id", "ASC"⟩, [("author", .str "ann")], "post_id", .num 7⟩).2.2
     "author" (by decide)⟩

/-- C3: for every non-empty id list, updateMany issues exactly one PUT
request per id, the k-th to the base url suffixed with the k-th id and with
the JSON-stringified data as body, and, when every response json carries
the requested id, resolves to the id list in input order. -/
theorem spec_C3 (config : MicroServiceConfig) (httpClient : HttpClient)
    (resource : String) (ids : List RaId) (data : JVal)
    (hne : ids ≠ [])
    (hresp : ∀ i ∈ ids,
      ∃ r, httpClient (updateManyRequest config resource data i) = .ok r ∧
        jsonId r.json = idToJVal i) :
    (updateManyRequests config resource ids data).length = ids.length ∧
    (∀ k : Nat, (updateManyRequests config resource ids data)[k]? =
      (ids[k]?).map (fun i =>
        (⟨config resource ++ "/" ++ idToString i, .PUT,
          some (jsonStringify data)⟩ : Req))) ∧
    updateMany config httpClient resource ids data = .ok ⟨ids.map idToJVal⟩ := by
  refine ⟨?_, ?_, ?_⟩
  · unfold updateManyRequests
    exact List.length_map _ _
  · intro k
    unfold updateManyRequests
    rw [List.getElem?_map]
    rfl
  · exact updateMany_ok_of_ids config httpClient resource data ids hresp

theorem spec_C3_witness :
    (updateManyRequests (fun _ => "http://posts.api") "posts"
        [.num 1, .num 2, .num 3] (.obj [("status", .str "done")])).length =
      ([.num 1, .num 2, .num 3] : List RaId).length ∧
    (∀ k : Nat, (updateManyRequests (fun _ => "http://posts.api") "posts"
        [.num 1, .num 2, .num 3] (.obj [("status", .str "done")]))[k]? =
      (([.num 1, .num 2, .num 3] : List RaId)[k]?).map (fun i =>
        (⟨(fun _ => "http://posts.api") "posts" ++ "/" ++ idToString i, .PUT,
          some (jsonStringify (.obj [("status", .str "done")]))⟩ : Req))) ∧
    updateMany (fun _ => "http://posts.api")
      (fun req =>
        if req.url = "http://posts.api/1" then
          .ok ⟨200, [], .obj [("id", .num 1)]⟩
        else if req.url = "http://posts.api/2" then
          .ok ⟨200, [], .obj [("id", .num 2)]⟩
        else .ok ⟨200, [], .obj [("id", .num 3)]⟩)
      "posts" [.num 1, .num 2, .num 3] (.obj [("status", .str "done")]) =
      .ok ⟨([.num 1, .num 2, .num 3] : List RaId).map idToJVal⟩ :=
  spec_C3 (fun _ => "http://posts.api")
    (fun req =>
      if req.url = "http://posts.api/1" then
        .ok ⟨200, [], .obj [("id", .num 1)]⟩
      else if req.url = "http://posts.api/2" then
        .ok ⟨200, [], .obj [("id", .num 2)]⟩
      else .ok ⟨200, [], .obj [("id", .num 3)]⟩)
    "posts" [.num 1, .num 2, .num 3] (.obj [("status", .str "done")])
    (by simp)
    (by
      intro i hi
      simp only [List.mem_cons, List.not_mem_nil, or_false] at hi
      rcases hi with rfl | rfl | rfl
      · exact ⟨⟨200, [], .obj [("id", .num 1)]⟩, rfl, rfl⟩
      · exact ⟨⟨200, [], .obj [("id", .num 2)]⟩, rfl, rfl⟩
      · exact ⟨⟨200, [], .obj [("id", .num 3)]⟩, rfl, rfl⟩)

/-- C5: for every response whose Content-Range value ends in a slash
followed by a non-empty decimal digit string, getList and getManyReference
resolve with total equal to the value of that digit string, obtained by
splitting on the slash, taking the last segment and parsing it in base 10;
the header items 0-24/319 is the instance with total 319. -/
theorem spec_C5 (config : MicroServiceConfig) (httpClient : HttpClient)
    (resource : String) (p : GetListParams) (q : GetManyReferenceParams)
    (resp resp2 : Resp) (t t2 : String) (ds ds2 : List Char)
    (h1 : httpClient (getListRequest config resource p) = .ok resp)
    (hh1 : headersGet resp.headers "content-range" =
      some (t ++ "/" ++ String.mk ds))
    (hne : ds ≠ []) (hdig : ∀ c ∈ ds, c.isDigit = true)
    (h2 : httpClient (getManyReferenceRequest config resource q) = .ok resp2)
    (hh2 : headersGet resp2.headers "content-range" =
      some (t2 ++ "/" ++ String.mk ds2))
    (hne2 : ds2 ≠ []) (hdig2 : ∀ c ∈ ds2, c.isDigit = true) :
    getList config httpClient resource p =
      .ok ⟨resp.json, some ((digitsToNat ds : Nat) : Int)⟩ ∧
    getManyReference config httpClient resource q =
      .ok ⟨resp2.json, some ((digitsToNat ds2 : Nat) : Int)⟩ := by
  constructor
  · rw [getList_ok_resp config httpClient resource p resp h1,
      listResponseHandler_of_get resp _ hh1]
    have hsne : ¬ (t ++ "/" ++ String.mk ds) = "" := by
      intro he
      have hd := congrArg String.data he
      simp at hd
    have hslash : '/' ∉ (String.mk ds).data := by
      intro hm
      exact absurd (hdig '/' hm) (by decide)
    rw [if_neg hsne, lastSegment_append t (String.mk ds) hslash,
      jsParseInt_digits ds hne hdig]
  · rw [getManyReference_ok_resp config httpClient resource q resp2 h2,
      listResponseHandler_of_get resp2 _ hh2]
    have hsne : ¬ (t2 ++ "/" ++ String.mk ds2) = "" := by
      intro he
      have hd := congrArg String.data he
      simp at hd
    have hslash : '/' ∉ (String.mk ds2).data := by
      intro hm
      exact absurd (hdig2 '/' hm) (by decide)
    rw [if_neg hsne, lastSegment_append t2 (String.mk ds2) hslash,
      jsParseInt_digits ds2 hne2 hdig2]

theorem spec_C5_witness :
    getList (fun _ => "http://posts.api")
        (fun _ => .ok ⟨200, [("content-range", "items 0-24/319")], .null⟩)
        "posts" ⟨⟨1, 25⟩, ⟨"title", "ASC"⟩, []⟩ = .ok ⟨.null, some 319⟩ ∧
    getManyReference (fun _ => "http://posts.api")
        (fun _ => .ok ⟨200, [("content-range", "items 0-24/319")], .null⟩)
        "posts" ⟨⟨1, 25⟩, ⟨"id", "ASC"⟩, [], "post_id", .num 7⟩ =
      .ok ⟨.null, some 319⟩ :=
  spec_C5 (fun _ => "http://posts.api")
    (fun _ => .ok ⟨200, [("content-range", "items 0-24/319")], .null⟩)
    "posts" ⟨⟨1, 25⟩, ⟨"title", "ASC"⟩, []⟩
    ⟨⟨1, 25⟩, ⟨"id", "ASC"⟩, [], "post_id", .num 7⟩
    ⟨200, [("content-range", "items 0-24/319")], .null⟩
    ⟨200, [("content-range", "items 0-24/319")], .null⟩
    "items 0-24" "items 0-24" ['3', '1', '9'] ['3', '1', '9']
    rfl rfl (by decide) (by decide) rfl rfl (by decide) (by decide)

/-- C7: create resolves to the submitted object with its top-level id field
set to the id carried by the response json; the id key of the result equals
that id and every other top-level field keeps exactly the value it has in
the submitted object, so nested objects are taken as-is, not merged. -/
theorem spec_C7 (config : MicroServiceConfig) (httpClient : HttpClient)
    (resource : String) (data : List (String × JVal)) (resp : Resp) (v : JVal)
    (h : httpClient (createRequest config resource data) = .ok resp)
    (hid : jsonGetField resp.json "id" = some v) :
    create config httpClient resource data = .ok ⟨objSpread data "id" v⟩ ∧
    objGet (objSpread data "id" v) "id" = some v ∧
    ∀ k, ¬ k = "id" → objGet (objSpread data "id" v) k = objGet data k := by
  refine ⟨?_, objGet_objSpread_self _ _ _,
    fun k hk => objGet_objSpread_ne _ _ _ k hk⟩
  unfold create
  rw [h, exceptMap_ok]
  simp only [jsonId]
  rw [hid]
  rfl

theorem spec_C7_witness :
    create (fun _ => "http://posts.api")
        (fun _ => .ok ⟨201, [], .obj [("id", .num 99)]⟩) "posts"
        [("title", .str "hello"), ("meta", .obj [("a", .num 1)])] =
      .ok ⟨objSpread [("title", .str "hello"), ("meta", .obj [("a", .num 1)])]
        "id" (.num 99)⟩ ∧
    objGet (objSpread [("title", .str "hello"), ("meta", .obj [("a", .num 1)])]
        "id" (.num 99)) "id" = some (.num 99) ∧
    objGet (objSpread [("title", .str "hello"), ("meta", .obj [("a", .num 1)])]
        "id" (.num 99)) "meta" =
      objGet [("title", .str "hello"), ("meta", .obj [("a", .num 1)])] "meta" :=
  ⟨(spec_C7 (fun _ => "http://posts.api")
      (fun _ => .ok ⟨201, [], .obj [("id", .num 99)]⟩) "posts"
      [("title", .str "hello"), ("meta", .obj [("a", .num 1)])]
      ⟨201, [], .obj [("id", .num 99)]⟩ (.num 99) rfl rfl).1,
   (spec_C7 (fun _ => "http://posts.api")
      (fun _ => .ok ⟨201, [], .obj [("id", .num 99)]⟩) "posts"
      [("title", .str "hello"), ("meta", .obj [("a", .num 1)])]
      ⟨201, [], .obj [("id", .num 99)]⟩ (.num 99) rfl rfl).2.1,
   (spec_C7 (fun _ => "http://posts.api")
      (fun _ => .ok ⟨201, [], .obj [("id", .num 99)]⟩) "posts"
      [("title", .str "hello"), ("meta", .obj [("a", .num 1)])]
      ⟨201, [], .obj [("id", .num 99)]⟩ (.num 99) rfl rfl).2.2
     "meta" (by decide)⟩

/-- C8: for every id list, if at least one of the per-id requests of
updateMany or deleteMany rejects, the aggregate promise rejects with an
error that is the rejection of one of the per-id requests, and no success
value is returned to the caller. -/
theorem spec_C8 (config : MicroServiceConfig) (httpClient : HttpClient)
    (resource : String) (ids : List RaId) (data : JVal) :
    ((∃ i ∈ ids, ∃ e,
        httpClient (updateManyRequest config resource data i) = .error e) →
      ∃ e, updateMany config httpClient resource ids data = .error e ∧
        ∃ i ∈ ids,
          httpClient (updateManyRequest config resource data i) = .error e) ∧
    ((∃ i ∈ ids, ∃ e,
        httpClient (deleteManyRequest config resource i) = .error e) →
      ∃ e, deleteMany config httpClient resource ids = .error e ∧
        ∃ i ∈ ids,
          httpClient (deleteManyRequest config resource i) = .error e) := by
  constructor
  · rintro ⟨i, hi, e, he⟩
    have hlist : ∃ x ∈ List.map httpClient
        (List.map (updateManyRequest config resource data) ids),
        ∃ e, x = Except.error e :=
      ⟨httpClient (updateManyRequest config resource data i),
        List.mem_map_of_mem httpClient
          (List.mem_map_of_mem (updateManyRequest config resource data) hi),
        e, he⟩
    obtain ⟨e1, he1, x, hx, hxe⟩ := promiseAll_error_of_mem _ hlist
    refine ⟨e1, ?_, ?_⟩
    · unfold updateMany updateManyRequests
      rw [he1, exceptMap_error]
    · obtain ⟨req, hreq, hxval⟩ := List.mem_map.mp hx
      obtain ⟨j, hj, hreqval⟩ := List.mem_map.mp hreq
      refine ⟨j, hj, ?_⟩
      rw [hreqval, hxval]
      exact hxe
  · rintro ⟨i, hi, e, he⟩
    have hlist : ∃ x ∈ List.map httpClient
        (List.map (deleteManyRequest config resource) ids),
        ∃ e, x = Except.error e :=
      ⟨httpClient (deleteManyRequest config resource i),
        List.mem_map_of_mem httpClient
          (List.mem_map_of_mem (deleteManyRequest config resource) hi),
        e, he⟩
    obtain ⟨e1, he1, x, hx, hxe⟩ := promiseAll_error_of_mem _ hlist
    refine ⟨e1, ?_, ?_⟩
    · unfold deleteMany deleteManyRequests
      rw [he1, exceptMap_error]
    · obtain ⟨req, hreq, hxval⟩ := List.mem_map.mp hx
      obtain ⟨j, hj, hreqval⟩ := List.mem_map.mp hreq
      refine ⟨j, hj, ?_⟩
      rw [hreqval, hxval]
      exact hxe

theorem spec_C8_witness :
    (∃ e, updateMany (fun _ => "http://posts.api")
        (fun req => if req.url = "http://posts.api/2" then .error "boom"
          else .ok ⟨200, [], .obj [("id", .num 1)]⟩)
        "posts" [.num 1, .num 2, .num 3] (.obj [("status", .str "done")]) =
        .error e ∧
      ∃ i ∈ ([.num 1, .num 2, .num 3] : List RaId),
        (fun req : Req => if req.url = "http://posts.api/2" then
            Except.error "boom"
          else .ok (⟨200, [], .obj [("id", .num 1)]⟩ : Resp))
          (updateManyRequest (fun _ => "http://posts.api") "posts"
            (.obj [("status", .str "done")]) i) = .error e) ∧
    (∃ e, deleteMany (fun _ => "http://posts.api")
        (fun req => if req.url = "http://posts.api/2" then .error "boom"
          else .ok ⟨200, [], .obj [("id", .num 1)]⟩)
        "posts" [.num 1, .num 2, .num 3] = .error e ∧
      ∃ i ∈ ([.num 1, .num 2, .num 3] : List RaId),
        (fun req : Req => if req.url = "http://posts.api/2" then
            Except.error "boom"
          else .ok (⟨200, [], .obj [("id", .num 1)]⟩ : Resp))
          (deleteManyRequest (fun _ => "http://posts.api") "posts" i) =
          .error e) :=
  ⟨(spec_C8 (fun _ => "http://posts.api")
      (fun req => if req.url = "http://posts.api/2" then .error "boom"
        else .ok ⟨200, [], .obj [("id", .num 1)]⟩)
      "posts" [.num 1, .num 2, .num 3] (.obj [("status", .str "done")])).1
    ⟨.num 2, by simp, "boom", rfl⟩,
   (spec_C8 (fun _ => "http://posts.api")
      (fun req => if req.url = "http://posts.api/2" then .error "boom"
        else .ok ⟨200, [], .obj [("id", .num 1)]⟩)
      "posts" [.num 1, .num 2, .num 3] (.obj [("status", .str "done")])).2
    ⟨.num 2, by simp, "boom", rfl⟩⟩

/-- C9: for the empty id list, updateMany and deleteMany dispatch zero HTTP
requests and resolve successfully to the empty data list. -/
theorem spec_C9 (config : MicroServiceConfig) (httpClient : HttpClient)
    (resource : String) (data : JVal) :
    updateManyRequests config resource [] data = [] ∧
    updateMany config httpClient resource [] data = .ok ⟨[]⟩ ∧
    deleteManyRequests config resource [] = [] ∧
    deleteMany config httpClient resource [] = .ok ⟨[]⟩ :=
  ⟨rfl, rfl, rfl, rfl⟩

/-- C10: every operation of the adapter is independent of the status field
of the transport responses: two transports whose outcomes agree on
rejections, headers and json, while their statuses may differ arbitrarily,
produce identical results for all nine operations. -/
theorem spec_C10 (config : MicroServiceConfig) (env1 env2 : HttpClient)
    (resource : String) (p : GetListParams) (gid : RaId) (gids : List RaId)
    (q : GetManyReferenceParams) (uid : RaId) (udata : JVal)
    (mids : List RaId) (mdata : JVal) (cdata : List (String × JVal))
    (did : RaId) (dids : List RaId)
    (h : ∀ r : Req, RespAgree (env1 r) (env2 r)) :
    getList config env1 resource p = getList config env2 resource p ∧
    getOne config env1 resource gid = getOne config env2 resource gid ∧
    getMany config env1 resource gids = getMany config env2 resource gids ∧
    getManyReference config env1 resource q =
      getManyReference config env2 resource q ∧
    update config env1 resource uid udata =
      update config env2 resource uid udata ∧
    updateMany config env1 resource mids mdata =
      updateMany config env2 resource mids mdata ∧
    create config env1 resource cdata = create config env2 resource cdata ∧
    deleteOp config env1 resource did = deleteOp config env2 resource did ∧
    deleteMany config env1 resource dids =
      deleteMany config env2 resource dids := by
  refine ⟨?_, ?_, ?_, ?_, ?_, ?_, ?_, ?_, ?_⟩
  · exact bind_handler_agree _ _ (h _)
  · exact map_single_agree _ _ (h _)
  · exact map_single_agree _ _ (h _)
  · exact bind_handler_agree _ _ (h _)
  · exact map_single_agree _ _ (h _)
  · exact promiseAll_many_agree env1 env2 h _
  · exact map_create_agree cdata _ _ (h _)
  · exact map_single_agree _ _ (h _)
  · exact promiseAll_many_agree env1 env2 h _

theorem spec_C10_witness :
    getList (fun _ => "http://posts.api")
        (fun _ => .ok ⟨200, [("content-range", "items 0-24/319")],
          .obj [("id", .num 1)]⟩)
        "posts" ⟨⟨1, 25⟩, ⟨"title", "ASC"⟩, []⟩ =
      getList (fun _ => "http://posts.api")
        (fun _ => .ok ⟨404, [("content-range", "items 0-24/319")],
          .obj [("id", .num 1)]⟩)
        "posts" ⟨⟨1, 25⟩, ⟨"title", "ASC"⟩, []⟩ ∧
    getOne (fun _ => "http://posts.api")
        (fun _ => .ok ⟨200, [("content-range", "items 0-24/319")],
          .obj [("id", .num 1)]⟩) "posts" (.num 1) =
      getOne (fun _ => "http://posts.api")
        (fun _ => .ok ⟨404, [("content-range", "items 0-24/319")],
          .obj [("id", .num 1)]⟩) "posts" (.num 1) ∧
    getMany (fun _ => "http://posts.api")
        (fun _ => .ok ⟨200, [("content-range", "items 0-24/319")],
          .obj [("id", .num 1)]⟩) "posts" [.num 1, .num 2] =
      getMany (fun _ => "http://posts.api")
        (fun _ => .ok ⟨404, [("content-range", "items 0-24/319")],
          .obj [("id", .num 1)]⟩) "posts" [.num 1, .num 2] ∧
    getManyReference (fun _ => "http://posts.api")
        (fun _ => .ok ⟨200, [("content-range", "items 0-24/319")],
          .obj [("id", .num 1)]⟩)
        "posts" ⟨⟨1, 25⟩, ⟨"id", "ASC"⟩, [], "post_id", .num 7⟩ =
      getManyReference (fun _ => "http://posts.api")
        (fun _ => .ok ⟨404, [("content-range", "items 0-24/319")],
          .obj [("id", .num 1)]⟩)
        "posts" ⟨⟨1, 25⟩, ⟨"id", "ASC"⟩, [], "post_id", .num 7⟩ ∧
    update (fun _ => "http://posts.api")
        (fun _ => .ok ⟨200, [("content-range", "items 0-24/319")],
          .obj [("id", .num 1)]⟩) "posts" (.num 1) (.obj [("a", .num 2)]) =
      update (fun _ => "http://posts.api")
        (fun _ => .ok ⟨404, [("content-range", "items 0-24/319")],
          .obj [("id", .num 1)]⟩) "posts" (.num 1) (.obj [("a", .num 2)]) ∧
    updateMany (fun _ => "http://posts.api")
        (fun _ => .ok ⟨200, [("content-range", "items 0-24/319")],
          .obj [("id", .num 1)]⟩) "posts" [.num 1, .num 2]
        (.obj [("a", .num 2)]) =
      updateMany (fun _ => "http://posts.api")
        (fun _ => .ok ⟨404, [("content-range", "items 0-24/319")],
          .obj [("id", .num 1)]⟩) "posts" [.num 1, .num 2]
        (.obj [("a", .num 2)]) ∧
    create (fun _ => "http://posts.api")
        (fun _ => .ok ⟨200, [("content-range", "items 0-24/319")],
          .obj [("id", .num 1)]⟩) "posts" [("title", .str "x")] =
      create (fun _ => "http://posts.api")
        (fun _ => .ok ⟨404, [("content-range", "items 0-24/319")],
          .obj [("id", .num 1)]⟩) "posts" [("title", .str "x")] ∧
    deleteOp (fun _ => "http://posts.api")
        (fun _ => .ok ⟨200, [("content-range", "items 0-24/319")],
          .obj [("id", .num 1)]⟩) "posts" (.num 1) =
      deleteOp (fun _ => "http://posts.api")
        (fun _ => .ok ⟨404, [("content-range", "items 0-24/319")],
          .obj [("id", .num 1)]⟩) "posts" (.num 1) ∧
    deleteMany (fun _ => "http://posts.api")
        (fun _ => .ok ⟨200, [("content-range", "items 0-24/319")],
          .obj [("id", .num 1)]⟩) "posts" [.num 1, .num 2] =
      deleteMany (fun _ => "http://posts.api")
        (fun _ => .ok ⟨404, [("content-range", "items 0-24/319")],
          .obj [("id", .num 1)]⟩) "posts" [.num 1, .num 2] :=
  spec_C10 (fun _ => "http://posts.api")
    (fun _ => .ok ⟨200, [("content-range", "items 0-24/319")],
      .obj [("id", .num 1)]⟩)
    (fun _ => .ok ⟨404, [("content-range", "items 0-24/319")],
      .obj [("id", .num 1)]⟩)
    "posts" ⟨⟨1, 25⟩, ⟨"title", "ASC"⟩, []⟩ (.num 1) [.num 1, .num 2]
    ⟨⟨1, 25⟩, ⟨"id", "ASC"⟩, [], "post_id", .num 7⟩ (.num 1)
    (.obj [("a", .num 2)]) [.num 1, .num 2] (.obj [("a", .num 2)])
    [("title", .str "x")] (.num 1) [.num 1, .num 2]
    (fun _ => ⟨rfl, rfl⟩)
